import Mathlib

/-!
Verification of the runtime coordinator of uptime-kuma
(`src/server/uptime-kuma-server.js`) against its natural-language
specification.

The development shallowly embeds the JavaScript source: each method of
`UptimeKumaServer` that the claims touch becomes a pure Lean function
(stateful code becomes explicit state passing), and external collaborators
that the repository excerpt does not contain (the Settings store, the
roll-forward routine `MaintenanceTimeslot.generateTimeslot`, the DNS cache
refresh) are modelled from the specification, as flagged on the individual
definitions.
-/

set_option maxHeartbeats 1000000

/- ===================================================================
   ClientIdentity: `getClientIP(socket)` (source lines 188-205)
   =================================================================== -/

/-- The parts of a socket.io connection read by `getClientIP`:
`socket.client.conn.request.headers["cf-connecting-ip"]`,
`socket.client.conn.remoteAddress`, and the `x-forwarded-for` /
`x-real-ip` headers. `none` models an absent header / `undefined`. -/
structure Conn where
  cfConnectingIP : Option String
  remoteAddress : Option String
  xForwardedFor : Option String
  xRealIP : Option String
deriving DecidableEq

/-- JavaScript `a || b` on string-or-undefined values: the empty string and
`undefined` are falsy. -/
def jsStringOr (a : Option String) (b : Option String) : Option String :=
  match a with
  | some s => if s = "" then b else some s
  | none => b

/-- Line 190-194: `let clientIP = headers["cf-connecting-ip"] ||
socket.client.conn.remoteAddress; if (clientIP === undefined) clientIP = ""`.
(The `undefined` case and the getD default coincide.) -/
def baselineIP (c : Conn) : String :=
  (jsStringOr c.cfConnectingIP c.remoteAddress).getD ""

/-- Characters that the JavaScript regex metacharacter `.` does not match
(line terminators). -/
def jsRegexDotNoMatch (ch : Char) : Bool :=
  ch = '\n' || ch = '\r' || ch = '\u2028' || ch = '\u2029'

/-- Helper for `/^.*:/`: returns the characters after the last `:` occurring
in the leading line-terminator-free segment, or `none` when the regex does
not match. -/
def dropThroughLastColon : List Char → Option (List Char)
  | [] => none
  | ch :: rest =>
    if jsRegexDotNoMatch ch then none
    else
      match dropThroughLastColon rest with
      | some r => some r
      | none => if ch = ':' then some rest else none

/-- JavaScript `s.replace(/^.*:/, "")` (lines 201 and 203): greedily removes
everything up to and including the last colon reachable from the start of
the string. -/
def stripUpToLastColon (s : String) : String :=
  match dropThroughLastColon s.data with
  | some r => String.mk r
  | none => s

/-- JavaScript whitespace trimmed by `String.prototype.trim` (the subset
relevant to header values). -/
def jsWhitespace (ch : Char) : Bool :=
  ch = ' ' || ch = '\t' || ch = '\n' || ch = '\r' ||
  ch = '\x0b' || ch = '\x0c' || ch = '\u00A0' || ch = '\uFEFF'

/-- JavaScript `s.trim()`. -/
def jsTrim (s : String) : String :=
  String.mk (((s.data.dropWhile jsWhitespace).reverse.dropWhile jsWhitespace).reverse)

/-- JavaScript `s.split(",")[0]`: the segment before the first comma (the
whole string when no comma occurs). -/
def firstCommaEntry (s : String) : String :=
  String.mk (s.data.takeWhile (fun ch => ch ≠ ','))

/-- `getClientIP(socket)` (lines 188-205), with the awaited
`Settings.get("trustProxy")` passed in as the `trustProxy` argument. -/
def getClientIP (trustProxy : Bool) (c : Conn) : String :=
  let clientIP := baselineIP c
  if trustProxy then
    let fromForwarded : Option String :=
      match c.xForwardedFor with
      | some forwardedFor => some (jsTrim (firstCommaEntry forwardedFor))
      | none => none
    (jsStringOr (jsStringOr fromForwarded c.xRealIP)
      (some (stripUpToLastColon clientIP))).getD ""
  else
    stripUpToLastColon clientIP

/-- The value the trust-proxy branch takes from `x-forwarded-for`, when that
value is truthy: the trimmed first comma-separated entry. -/
def forwardedEntry (c : Conn) : Option String :=
  match c.xForwardedFor with
  | some s => if jsTrim (firstCommaEntry s) = "" then none else some (jsTrim (firstCommaEntry s))
  | none => none

/-- The value the trust-proxy branch takes from `x-real-ip`, when truthy. -/
def realIPEntry (c : Conn) : Option String :=
  match c.xRealIP with
  | some s => if s = "" then none else some s
  | none => none

/- ===================================================================
   TimeAuthority: `getTimezone` / `setTimezone` (source lines 207-226)
   =================================================================== -/

/-- The process-wide state read and written by the timezone methods: the
Settings store (key, value, category triples), `process.env.TZ`, and the
dayjs cached default zone set by `dayjs.tz.setDefault`. -/
structure TimeState where
  settings : List (String × String × String)
  envTZ : Option String
  dayjsDefault : Option String
deriving DecidableEq

/-- Modelled from the spec: the external Settings store (`./settings`, not in
the excerpt) is a get/set store of string-keyed values namespaced by
category; `get key` returns the stored value for `key`. -/
def settingsGet (st : TimeState) (key : String) : Option String :=
  (st.settings.find? (fun e => e.1 = key)).map (fun e => e.2.1)

/-- Modelled from the spec: `Settings.set(key, value, category)` replaces the
stored value (and category) for `key`. -/
def settingsSet (st : TimeState) (key val cat : String) : TimeState :=
  { st with settings := (key, val, cat) :: st.settings.filter (fun e => e.1 ≠ key) }

/-- `getTimezone()` (lines 207-216): the stored `serverTimezone` setting if
truthy, else `process.env.TZ` if truthy, else `dayjs.tz.guess()` (the host
default, passed in as `hostGuess`). -/
def getTimezone (st : TimeState) (hostGuess : String) : String :=
  let envPart : String :=
    match st.envTZ with
    | some e => if e = "" then hostGuess else e
    | none => hostGuess
  match settingsGet st "serverTimezone" with
  | some timezone => if timezone = "" then envPart else timezone
  | none => envPart

/-- `setTimezone(timezone)` (lines 222-226): persist under category
"general", update `process.env.TZ`, update the dayjs default. -/
def setTimezone (st : TimeState) (timezone : String) : TimeState :=
  let st1 := settingsSet st "serverTimezone" timezone "general"
  { st1 with envTZ := some timezone, dayjsDefault := some timezone }

/- ===================================================================
   ServerCoordinator singleton: `getInstance` (source lines 51-56)
   =================================================================== -/

/-- The `args` object handed to the constructor (only the SSL entries are
read; transport bootstrap itself is out of scope per spec section 1). -/
structure ServerArgs where
  sslKey : Option String
  sslCert : Option String
deriving DecidableEq

/-- The in-memory fields of an `UptimeKumaServer` instance that the claims
observe (registries, entry page, the constructor arguments). -/
structure UptimeKumaServer where
  monitorList : List (Nat × String)
  maintenanceList : List (Nat × String)
  entryPage : String
  args : ServerArgs
deriving DecidableEq

/-- The constructor (lines 58-87) restricted to its in-memory effects: empty
registries, `entryPage = "dashboard"`, the arguments retained. -/
def UptimeKumaServer.create (args : ServerArgs) : UptimeKumaServer :=
  { monitorList := [], maintenanceList := [], entryPage := "dashboard", args := args }

/-- `static getInstance(args)` (lines 51-56), with the static `instance`
field passed and returned explicitly: create on first call, return the
stored instance otherwise. -/
def UptimeKumaServer.getInstance (inst : Option UptimeKumaServer) (args : ServerArgs) :
    UptimeKumaServer × Option UptimeKumaServer :=
  match inst with
  | none =>
    let s := UptimeKumaServer.create args
    (s, some s)
  | some s => (s, some s)

/- ===================================================================
   MaintenanceScheduler: `generateMaintenanceTimeslots` (lines 228-239)
   =================================================================== -/

/-- A `maintenance_timeslot` row: `{start_date, end_date, generated_next,
maintenance (parent id)}` plus the row id. -/
structure Slot where
  id : Nat
  maintenance_id : Nat
  start_date : Int
  end_date : Int
  generated_next : Bool
deriving DecidableEq

/-- The external collaborators of one scheduler pass. `loadOk m` models
whether the owning maintenance window `m` can be loaded
(`await maintenanceTimeslot.maintenance`); `genOk m e` whether the
roll-forward call for window `m` and previous end `e` succeeds; `nextSlot m
e` is the logical next slot it materializes. -/
structure GenEnv where
  loadOk : Nat → Bool
  genOk : Nat → Int → Bool
  nextSlot : Nat → Int → Slot

/-- `maintenanceTimeslot.generated_next = true` (line 235). -/
def flagOf (s : Slot) : Slot := { s with generated_next := true }

/-- `R.store(maintenanceTimeslot)` after setting the flag (line 236):
persists the flagged row, by row id. -/
def storeFlag (table : List Slot) (sid : Nat) : List Slot :=
  table.map (fun s => if s.id = sid then flagOf s else s)

/-- Whether the table holds a row with the given id. -/
def hasSlotId (table : List Slot) (sid : Nat) : Bool :=
  table.any (fun s => s.id = sid)

/-- Modelled from the spec: the successful effect of the external
roll-forward routine `MaintenanceTimeslot.generateTimeslot(maintenance,
previousEnd, false)` (`./model/maintenance_timeslot`, not in the excerpt) —
it materializes the logical next slot for `(window, previousEnd)`, and is
idempotent-or-deduplicating: when that slot already exists it creates
nothing. -/
def addNextSlot (env : GenEnv) (table : List Slot) (m : Nat) (prevEnd : Int) : List Slot :=
  if hasSlotId table (env.nextSlot m prevEnd).id then table
  else table ++ [env.nextSlot m prevEnd]

/-- Modelled from the spec: the external roll-forward routine as a fallible
call — `none` models a thrown error, `some` the updated timeslot table. -/
def generateTimeslot (env : GenEnv) (m : Nat) (prevEnd : Int) (table : List Slot) :
    Option (List Slot) :=
  if env.genOk m prevEnd then some (addNextSlot env table m prevEnd) else none

/-- The query of line 230: `R.find("maintenance_timeslot", " generated_next
= 0 AND start_date <= DATETIME(now) ")`. -/
def dueSlots (now : Int) (table : List Slot) : List Slot :=
  table.filter (fun s => !s.generated_next && decide (s.start_date ≤ now))

/-- The `for` loop of lines 232-237 over the query snapshot: load the owning
window, roll forward, then flag and store the current row. A thrown error
(load failure or roll-forward failure) aborts the whole loop; the Bool
result records whether the pass aborted. -/
def processList (env : GenEnv) : List Slot → List Slot → List Slot × Bool
  | [], table => (table, false)
  | s :: rest, table =>
    if env.loadOk s.maintenance_id then
      match generateTimeslot env s.maintenance_id s.end_date table with
      | some table2 => processList env rest (storeFlag table2 s.id)
      | none => (table, true)
    else
      (table, true)

/-- The error-free body of the loop, iterated: roll forward then flag, for
each snapshot row in order. -/
def passFold (env : GenEnv) : List Slot → List Slot → List Slot
  | [], table => table
  | s :: rest, table =>
    passFold env rest (storeFlag (addNextSlot env table s.maintenance_id s.end_date) s.id)

/-- `generateMaintenanceTimeslots()` (lines 228-239): query the due slots,
then run the loop on that snapshot. -/
def generateMaintenanceTimeslots (env : GenEnv) (now : Int) (table : List Slot) :
    List Slot × Bool :=
  processList env (dueSlots now table) table

/-- Number of rows in the table carrying a given row id. -/
def countId (table : List Slot) (sid : Nat) : Nat :=
  (table.filter (fun s => s.id = sid)).length

/- ===================================================================
   `initAfterDatabaseReady` (source lines 89-99)
   =================================================================== -/

/-- Modelled from the spec: whether the awaited external steps of
`initAfterDatabaseReady` succeed — `CacheableDnsHttpAgent.update()` (step 1)
and resolving/applying the timezone (step 2). -/
structure InitEnv where
  dnsUpdateOk : Bool
  timezoneOk : Bool
deriving DecidableEq

/-- Which side effects of `initAfterDatabaseReady` ran, and whether the call
rejected. -/
structure InitResult where
  dnsUpdated : Bool
  timezoneApplied : Bool
  schedulerPassRun : Bool
  intervalArmed : Bool
  errored : Bool
deriving DecidableEq

/-- `initAfterDatabaseReady()` (lines 89-99): sequential `await`s with no
catch — a rejection in step 1 or step 2 skips every later step and
propagates; otherwise one scheduler pass runs and the 60 s interval is
armed. -/
def initAfterDatabaseReady (env : InitEnv) : InitResult :=
  if !env.dnsUpdateOk then
    { dnsUpdated := false, timezoneApplied := false, schedulerPassRun := false,
      intervalArmed := false, errored := true }
  else if !env.timezoneOk then
    { dnsUpdated := true, timezoneApplied := false, schedulerPassRun := false,
      intervalArmed := false, errored := true }
  else
    { dnsUpdated := true, timezoneApplied := true, schedulerPassRun := true,
      intervalArmed := true, errored := false }

/- ===================================================================
   RealtimeBroadcaster: maintenance list (source lines 128-160)
   =================================================================== -/

/-- A `maintenance` row as read by `getMaintenanceJSONList`: row id, owner,
the two ORDER BY columns, and the serialized `toJSON()` payload. -/
structure Maintenance where
  id : Nat
  user_id : String
  end_date : Int
  title : String
  json : String
deriving DecidableEq

/-- The part of a socket.io socket read by `sendMaintenanceList`. -/
structure SocketRef where
  userID : String
deriving DecidableEq

/-- One `io.to(room).emit(event, payload)` call. -/
structure Emission where
  room : String
  event : String
  payload : List (Nat × String)
deriving DecidableEq

/-- The SQL collation of `ORDER BY end_date DESC, title`. -/
def maintBefore (a b : Maintenance) : Bool :=
  b.end_date < a.end_date || (a.end_date = b.end_date && a.title ≤ b.title)

/-- Insertion of a row into a list sorted by `maintBefore`. -/
def maintInsert (a : Maintenance) : List Maintenance → List Maintenance
  | [] => [a]
  | b :: rest => if maintBefore a b then a :: b :: rest else b :: maintInsert a rest

/-- Sorting by `ORDER BY end_date DESC, title` (insertion sort; the claims
do not depend on the sorting algorithm the store uses). -/
def maintSort : List Maintenance → List Maintenance
  | [] => []
  | a :: rest => maintInsert a (maintSort rest)

/-- `getMaintenanceJSONList(userID)` (lines 148-160): find the user's rows
ordered by end date descending then title, and build the id-to-JSON
mapping. -/
def getMaintenanceJSONList (db : List Maintenance) (userID : String) :
    List (Nat × String) :=
  (maintSort (db.filter (fun m => m.user_id = userID))).map (fun m => (m.id, m.json))

/-- `sendMaintenanceListByUserID(userID)` (lines 137-141): build the list,
emit it to the user's room under event `maintenanceList`, return it. -/
def sendMaintenanceListByUserID (db : List Maintenance) (userID : String) :
    List (Nat × String) × Emission :=
  let list := getMaintenanceJSONList db userID
  (list, { room := userID, event := "maintenanceList", payload := list })

/-- `sendMaintenanceList(socket)` (lines 133-135): delegate to
`sendMaintenanceListByUserID(socket.userID)`. -/
def sendMaintenanceList (db : List Maintenance) (socket : SocketRef) :
    List (Nat × String) × Emission :=
  sendMaintenanceListByUserID db socket.userID

/- ===================================================================
   Concrete instances used by witnesses and counterexamples
   =================================================================== -/

/-- Trust-proxy connection whose `x-forwarded-for` and baseline both carry
colons. -/
def connStripCex : Conn :=
  { cfConnectingIP := some "8.8.8.8:1234", remoteAddress := none,
    xForwardedFor := some "::ffff:9.9.9.9", xRealIP := none }

/-- Trust-proxy connection with the spec's example `x-forwarded-for`. -/
def connForwarded : Conn :=
  { cfConnectingIP := none, remoteAddress := some "10.0.0.9",
    xForwardedFor := some "1.2.3.4, 5.6.7.8", xRealIP := none }

/-- Connection with no address signal at all. -/
def connEmpty : Conn :=
  { cfConnectingIP := none, remoteAddress := none,
    xForwardedFor := some "1.2.3.4", xRealIP := some "5.6.7.8" }

/-- Trust-proxy connection carrying only a baseline address (with an
IPv6-mapped-IPv4 prefix). -/
def connBaselineOnly : Conn :=
  { cfConnectingIP := some "::ffff:1.2.3.4", remoteAddress := none,
    xForwardedFor := none, xRealIP := none }

/-- An initially empty timezone state. -/
def tzState0 : TimeState :=
  { settings := [], envTZ := none, dayjsDefault := none }

/-- A scheduler environment in which every load and every roll-forward
succeeds, and the next slot for `(m, e)` is a fresh row. -/
def envOk : GenEnv :=
  { loadOk := fun _ => true, genOk := fun _ _ => true,
    nextSlot := fun m e => { id := 100 + m, maintenance_id := m, start_date := e,
                             end_date := e + 60, generated_next := false } }

/-- A scheduler environment in which loading maintenance window 5 fails and
everything else succeeds. -/
def envLoadFail : GenEnv :=
  { envOk with loadOk := fun m => decide (m ≠ 5) }

/-- Timeslot row 1: window 5, due at time 0. -/
def slotOne : Slot :=
  { id := 1, maintenance_id := 5, start_date := 0, end_date := 10, generated_next := false }

/-- Timeslot row 2: window 6, due at time 0. -/
def slotTwo : Slot :=
  { id := 2, maintenance_id := 6, start_date := 0, end_date := 20, generated_next := false }

/-- A one-row timeslot table. -/
def tableOne : List Slot := [slotOne]

/-- A two-row timeslot table. -/
def tableTwo : List Slot := [slotOne, slotTwo]

/- ===================================================================
   Helper lemmas
   =================================================================== -/

/-- Case analysis of the trust-proxy branch of `getClientIP`. -/
lemma getClientIP_true_eq (c : Conn) :
    getClientIP true c =
      match forwardedEntry c with
      | some e => e
      | none =>
        match realIPEntry c with
        | some r => r
        | none => stripUpToLastColon (baselineIP c) := by
  unfold getClientIP forwardedEntry realIPEntry jsStringOr
  cases hff : c.xForwardedFor with
  | none =>
    cases hxr : c.xRealIP with
    | none => simp
    | some r => by_cases hr : r = "" <;> simp [hr]
  | some s =>
    by_cases he : jsTrim (firstCommaEntry s) = ""
    · cases hxr : c.xRealIP with
      | none => simp [he]
      | some r => by_cases hr : r = "" <;> simp [he, hr]
    · simp [he]

lemma flagOf_id (s : Slot) : (flagOf s).id = s.id := rfl

lemma flagOf_flagOf (s : Slot) : flagOf (flagOf s) = flagOf s := rfl

lemma countId_cons (a : Slot) (l : List Slot) (j : Nat) :
    countId (a :: l) j = (if a.id = j then 1 else 0) + countId l j := by
  by_cases h : a.id = j <;> simp [countId, List.filter_cons, h, Nat.add_comm]

lemma countId_append_single (l : List Slot) (x : Slot) (j : Nat) :
    countId (l ++ [x]) j = countId l j + (if x.id = j then 1 else 0) := by
  by_cases h : x.id = j <;> simp [countId, List.filter_append, List.filter_cons, h]

lemma countId_storeFlag (t : List Slot) (i j : Nat) :
    countId (storeFlag t i) j = countId t j := by
  induction t with
  | nil => rfl
  | cons y t ih =>
    have hmap : storeFlag (y :: t) i =
        (if y.id = i then flagOf y else y) :: storeFlag t i := by
      simp [storeFlag]
    rw [hmap, countId_cons, countId_cons, ih]
    by_cases h : y.id = i <;> simp [h, flagOf_id]

lemma hasSlotId_iff (t : List Slot) (j : Nat) :
    hasSlotId t j = true ↔ ∃ x ∈ t, x.id = j := by
  simp [hasSlotId, List.any_eq_true]

lemma countId_pos_iff (t : List Slot) (j : Nat) :
    0 < countId t j ↔ hasSlotId t j = true := by
  rw [hasSlotId_iff]
  simp [countId, List.length_pos_iff_exists_mem, List.mem_filter]

lemma countId_eq_zero_of_not_has (t : List Slot) (j : Nat)
    (h : hasSlotId t j = false) : countId t j = 0 := by
  have := countId_pos_iff t j
  rw [h] at this
  simp at this
  omega

lemma hasSlotId_storeFlag (t : List Slot) (i j : Nat) :
    hasSlotId (storeFlag t i) j = hasSlotId t j := by
  simp only [hasSlotId, storeFlag, List.any_map]
  congr 1
  funext y
  by_cases h : y.id = i <;> simp [h, flagOf_id, Function.comp]

lemma hasSlotId_addNextSlot_mono (env : GenEnv) (t : List Slot) (m : Nat) (e : Int)
    (j : Nat) (h : hasSlotId t j = true) :
    hasSlotId (addNextSlot env t m e) j = true := by
  unfold addNextSlot
  split
  · exact h
  · simp only [hasSlotId] at h ⊢
    simp [List.any_append, h]

lemma hasSlotId_addNextSlot_self (env : GenEnv) (t : List Slot) (m : Nat) (e : Int) :
    hasSlotId (addNextSlot env t m e) (env.nextSlot m e).id = true := by
  unfold addNextSlot
  split
  · assumption
  · simp [hasSlotId, List.any_append]

lemma mem_storeFlag_origin (t : List Slot) (i : Nat) (x : Slot)
    (hx : x ∈ storeFlag t i) : ∃ y ∈ t, (x = y ∨ x = flagOf y) := by
  rcases List.mem_map.1 hx with ⟨y, hy, hxy⟩
  refine ⟨y, hy, ?_⟩
  by_cases h : y.id = i
  · right; rw [← hxy]; simp [h]
  · left; rw [← hxy]; simp [h]

lemma mem_addNextSlot_origin (env : GenEnv) (t : List Slot) (m : Nat) (e : Int)
    (x : Slot) (hx : x ∈ addNextSlot env t m e) :
    x ∈ t ∨ x = env.nextSlot m e := by
  unfold addNextSlot at hx
  split at hx
  · exact Or.inl hx
  · rcases List.mem_append.1 hx with h | h
    · exact Or.inl h
    · exact Or.inr (List.mem_singleton.1 h)

lemma storeFlag_flags_self (t : List Slot) (i : Nat) :
    ∀ x ∈ storeFlag t i, x.id = i → x.generated_next = true := by
  intro x hx hxi
  rcases List.mem_map.1 hx with ⟨y, _, hxy⟩
  by_cases h : y.id = i
  · rw [← hxy]; simp [h, flagOf]
  · exfalso
    apply h
    rw [← hxy] at hxi
    simp only [h, if_false] at hxi

lemma storeFlag_preserves_flagged (t : List Slot) (i j : Nat)
    (h : ∀ x ∈ t, x.id = j → x.generated_next = true) :
    ∀ x ∈ storeFlag t i, x.id = j → x.generated_next = true := by
  intro x hx hxj
  rcases mem_storeFlag_origin t i x hx with ⟨y, hy, hc | hc⟩
  · exact hc ▸ h y hy (hc ▸ hxj)
  · rw [hc]; simp [flagOf]

lemma addNextSlot_preserves_flagged (env : GenEnv) (t : List Slot) (m : Nat) (e : Int)
    (j : Nat) (hne : (env.nextSlot m e).id ≠ j)
    (h : ∀ x ∈ t, x.id = j → x.generated_next = true) :
    ∀ x ∈ addNextSlot env t m e, x.id = j → x.generated_next = true := by
  intro x hx hxj
  rcases mem_addNextSlot_origin env t m e x hx with hc | hc
  · exact h x hc hxj
  · exact absurd (hc ▸ hxj) hne

lemma passFold_preserves_flagged (env : GenEnv) (ds : List Slot) (j : Nat)
    (hne : ∀ m e, (env.nextSlot m e).id ≠ j) :
    ∀ t, (∀ x ∈ t, x.id = j → x.generated_next = true) →
      ∀ x ∈ passFold env ds t, x.id = j → x.generated_next = true := by
  induction ds with
  | nil => intro t h; exact h
  | cons s rest ih =>
    intro t h
    exact ih _ (storeFlag_preserves_flagged _ _ _
      (addNextSlot_preserves_flagged env t s.maintenance_id s.end_date j
        (hne _ _) h))

lemma passFold_flags_mem (env : GenEnv) (ds : List Slot) (j : Nat)
    (hne : ∀ m e, (env.nextSlot m e).id ≠ j) :
    ∀ t, ∀ d ∈ ds, d.id = j →
      ∀ x ∈ passFold env ds t, x.id = j → x.generated_next = true := by
  induction ds with
  | nil => intro t d hd; exact absurd hd (List.not_mem_nil d)
  | cons s rest ih =>
    intro t d hd hdj
    rcases List.mem_cons.1 hd with rfl | hd
    · apply passFold_preserves_flagged env rest j hne
      intro x hx hxj
      exact storeFlag_flags_self _ _ x hx (hxj.trans hdj.symm)
    · exact ih _ d hd hdj

lemma mem_passFold_origin (env : GenEnv) (ds : List Slot) :
    ∀ t, ∀ x ∈ passFold env ds t,
      (∃ y ∈ t, x = y ∨ x = flagOf y) ∨
      (∃ d ∈ ds, x = env.nextSlot d.maintenance_id d.end_date ∨
        x = flagOf (env.nextSlot d.maintenance_id d.end_date)) := by
  induction ds with
  | nil => intro t x hx; exact Or.inl ⟨x, hx, Or.inl rfl⟩
  | cons s rest ih =>
    intro t x hx
    rcases ih _ x hx with ⟨y1, hy1, hc1⟩ | ⟨d, hd, hc⟩
    · rcases mem_storeFlag_origin _ _ _ hy1 with ⟨y2, hy2, hc2⟩
      have hx2 : x = y2 ∨ x = flagOf y2 := by
        rcases hc1 with rfl | rfl <;> rcases hc2 with rfl | rfl <;>
          simp [flagOf_flagOf]
      rcases mem_addNextSlot_origin env t _ _ y2 hy2 with hy3 | hy3
      · exact Or.inl ⟨y2, hy3, hx2⟩
      · exact Or.inr ⟨s, List.mem_cons_self s rest, hy3 ▸ hx2⟩
    · exact Or.inr ⟨d, List.mem_cons_of_mem s hd, hc⟩

lemma flagged_origin_passFold (env : GenEnv) (ds : List Slot) :
    ∀ t, ∀ x ∈ passFold env ds t, x.generated_next = true →
      (∃ y ∈ t, y.id = x.id ∧ y.generated_next = true) ∨
      (∃ d ∈ ds, d.id = x.id) ∨
      (∃ d ∈ ds, x.id = (env.nextSlot d.maintenance_id d.end_date).id) := by
  induction ds with
  | nil => intro t x hx hfl; exact Or.inl ⟨x, hx, rfl, hfl⟩
  | cons s rest ih =>
    intro t x hx hfl
    rcases ih _ x hx hfl with ⟨y1, hy1, hid1, hfl1⟩ | ⟨d, hd, hc⟩ | ⟨d, hd, hc⟩
    · rcases List.mem_map.1 hy1 with ⟨y2, hy2, hy12⟩
      by_cases hcase : y2.id = s.id
      · refine Or.inr (Or.inl ⟨s, List.mem_cons_self s rest, ?_⟩)
        rw [← hid1, ← hy12]
        simp [hcase, flagOf_id]
      · have hy1y2 : y1 = y2 := by rw [← hy12]; simp [hcase]
        subst hy1y2
        rcases mem_addNextSlot_origin env t _ _ y1 hy2 with hy3 | hy3
        · exact Or.inl ⟨y1, hy3, hid1, hfl1⟩
        · refine Or.inr (Or.inr ⟨s, List.mem_cons_self s rest, ?_⟩)
          rw [← hid1, hy3]
    · exact Or.inr (Or.inl ⟨d, List.mem_cons_of_mem s hd, hc⟩)
    · exact Or.inr (Or.inr ⟨d, List.mem_cons_of_mem s hd, hc⟩)

lemma hasSlotId_passFold_of_pos (env : GenEnv) (ds : List Slot) :
    ∀ t j, hasSlotId t j = true → hasSlotId (passFold env ds t) j = true := by
  induction ds with
  | nil => intro t j h; exact h
  | cons s rest ih =>
    intro t j h
    exact ih _ j (by
      rw [hasSlotId_storeFlag]
      exact hasSlotId_addNextSlot_mono env t _ _ j h)

lemma succ_present_passFold (env : GenEnv) (ds : List Slot) :
    ∀ t, ∀ d ∈ ds,
      hasSlotId (passFold env ds t) (env.nextSlot d.maintenance_id d.end_date).id = true := by
  induction ds with
  | nil => intro t d hd; exact absurd hd (List.not_mem_nil d)
  | cons s rest ih =>
    intro t d hd
    rcases List.mem_cons.1 hd with rfl | hd
    · rw [passFold]
      apply hasSlotId_passFold_of_pos
      rw [hasSlotId_storeFlag]
      exact hasSlotId_addNextSlot_self env t _ _
    · exact ih _ d hd

lemma countId_addNextSlot (env : GenEnv) (t : List Slot) (m : Nat) (e : Int) (j : Nat) :
    countId (addNextSlot env t m e) j =
      if hasSlotId t (env.nextSlot m e).id then countId t j
      else countId t j + (if (env.nextSlot m e).id = j then 1 else 0) := by
  unfold addNextSlot
  split <;> simp_all [countId_append_single]

lemma countId_passFold_of_pos (env : GenEnv) (ds : List Slot) :
    ∀ t j, 0 < countId t j → countId (passFold env ds t) j = countId t j := by
  induction ds with
  | nil => intro t j _; rfl
  | cons s rest ih =>
    intro t j hpos
    have hstep : countId (storeFlag (addNextSlot env t s.maintenance_id s.end_date) s.id) j
        = countId t j := by
      rw [countId_storeFlag, countId_addNextSlot]
      split
      · rfl
      · rename_i hnot
        have hne : (env.nextSlot s.maintenance_id s.end_date).id ≠ j := by
          intro heq
          apply hnot
          rw [heq, ← countId_pos_iff]
          exact hpos
        simp [hne]
    rw [passFold, ih _ j (by rw [hstep]; exact hpos), hstep]

lemma countId_passFold_of_zero (env : GenEnv) (ds : List Slot) :
    ∀ t j, countId t j = 0 →
      countId (passFold env ds t) j =
        if ds.any (fun d => decide ((env.nextSlot d.maintenance_id d.end_date).id = j))
        then 1 else 0 := by
  induction ds with
  | nil => intro t j h; simpa using h
  | cons s rest ih =>
    intro t j h
    by_cases hn : (env.nextSlot s.maintenance_id s.end_date).id = j
    · have hhas : hasSlotId t (env.nextSlot s.maintenance_id s.end_date).id = false := by
        rw [hn]
        cases hb : hasSlotId t j
        · rfl
        · rw [← countId_pos_iff] at hb
          omega
      have hstep : countId (storeFlag (addNextSlot env t s.maintenance_id s.end_date) s.id) j
          = 1 := by
        rw [countId_storeFlag, countId_addNextSlot, hhas]
        simp [hn, h]
      rw [passFold, countId_passFold_of_pos env rest _ j (by rw [hstep]; omega), hstep]
      simp [hn]
    · have hstep : countId (storeFlag (addNextSlot env t s.maintenance_id s.end_date) s.id) j
          = 0 := by
        rw [countId_storeFlag, countId_addNextSlot]
        split
        · exact h
        · simp [hn, h]
      rw [passFold, ih _ j hstep]
      simp [hn]

lemma processList_eq_passFold (env : GenEnv)
    (Hl : ∀ m, env.loadOk m = true) (Hg : ∀ m e, env.genOk m e = true) :
    ∀ ds t, processList env ds t = (passFold env ds t, false) := by
  intro ds
  induction ds with
  | nil => intro t; rfl
  | cons s rest ih =>
    intro t
    rw [processList, passFold]
    simp only [Hl, if_true, generateTimeslot, Hg]
    exact ih _

lemma processList_append_fail (env : GenEnv) :
    ∀ ds1 : List Slot, ∀ t d ds2,
      (∀ x ∈ ds1, env.loadOk x.maintenance_id = true ∧
        env.genOk x.maintenance_id x.end_date = true) →
      (env.loadOk d.maintenance_id = false ∨
        env.genOk d.maintenance_id d.end_date = false) →
      processList env (ds1 ++ d :: ds2) t = (passFold env ds1 t, true) := by
  intro ds1
  induction ds1 with
  | nil =>
    intro t d ds2 _ hd
    rcases hd with hd | hd
    · simp [processList, hd, passFold]
    · rw [List.nil_append, processList, passFold]
      cases hl : env.loadOk d.maintenance_id
      · simp
      · simp [generateTimeslot, hd]
  | cons x ds1 ih =>
    intro t d ds2 h1 hd
    have hx := h1 x (List.mem_cons_self x ds1)
    rw [List.cons_append, processList, passFold]
    simp only [hx.1, if_true, generateTimeslot, hx.2]
    exact ih _ d ds2 (fun y hy => h1 y (List.mem_cons_of_mem x hy)) hd

lemma processList_decompose (env : GenEnv) :
    ∀ ds t, ∃ dsp : List Slot,
      (∀ x ∈ dsp, env.loadOk x.maintenance_id = true ∧
        env.genOk x.maintenance_id x.end_date = true) ∧
      (∀ x ∈ dsp, x ∈ ds) ∧
      (processList env ds t).1 = passFold env dsp t := by
  intro ds
  induction ds with
  | nil => intro t; exact ⟨[], by simp, by simp, rfl⟩
  | cons s rest ih =>
    intro t
    by_cases hl : env.loadOk s.maintenance_id = true
    · by_cases hg : env.genOk s.maintenance_id s.end_date = true
      · rcases ih (storeFlag (addNextSlot env t s.maintenance_id s.end_date) s.id) with
          ⟨dsp, hok, hsub, heq⟩
        refine ⟨s :: dsp, ?_, ?_, ?_⟩
        · intro x hx
          rcases List.mem_cons.1 hx with rfl | hx
          · exact ⟨hl, hg⟩
          · exact hok x hx
        · intro x hx
          rcases List.mem_cons.1 hx with rfl | hx
          · exact List.mem_cons_self x rest
          · exact List.mem_cons_of_mem s (hsub x hx)
        · rw [processList, passFold]
          simp only [hl, if_true, generateTimeslot, hg, if_true]
          exact heq
      · refine ⟨[], by simp, by simp, ?_⟩
        rw [processList]
        simp only [hl, if_true, generateTimeslot]
        rw [if_neg hg]
        rfl
    · refine ⟨[], by simp, by simp, ?_⟩
      rw [processList, if_neg hl]
      rfl

lemma slot_eq_of_nodup_ids {table : List Slot}
    (Hids : (table.map (fun s => s.id)).Nodup) {a b : Slot}
    (ha : a ∈ table) (hb : b ∈ table) (h : a.id = b.id) : a = b :=
  List.inj_on_of_nodup_map Hids ha hb h

lemma mem_dueSlots {s : Slot} {now : Int} {t : List Slot} :
    s ∈ dueSlots now t ↔ s ∈ t ∧ s.generated_next = false ∧ s.start_date ≤ now := by
  simp [dueSlots, List.mem_filter]

lemma dueSlots_subset {now : Int} {t : List Slot} : ∀ x ∈ dueSlots now t, x ∈ t := by
  intro x hx
  exact (mem_dueSlots.1 hx).1

/- ===================================================================
   Claim theorems
   =================================================================== -/

/-- Claim C3: with `trustProxy` enabled, `getClientIP` prefers, in order,
the trimmed first comma-separated entry of `x-forwarded-for`, then the
`x-real-ip` header, then the baseline address (to which the source applies
its colon-stripping, per section 4.4 of the spec); in particular every
trust-proxy connection whose `x-forwarded-for` equals
"1.2.3.4, 5.6.7.8" resolves to "1.2.3.4". -/
theorem getClientIP_trustProxy_preference (c : Conn) :
    (∀ e, forwardedEntry c = some e → getClientIP true c = e) ∧
    (forwardedEntry c = none → ∀ r, realIPEntry c = some r → getClientIP true c = r) ∧
    (forwardedEntry c = none → realIPEntry c = none →
      getClientIP true c = stripUpToLastColon (baselineIP c)) ∧
    (c.xForwardedFor = some "1.2.3.4, 5.6.7.8" → getClientIP true c = "1.2.3.4") := by
  have hcase := getClientIP_true_eq c
  refine ⟨?_, ?_, ?_, ?_⟩
  · intro e he; rw [hcase, he]
  · intro hf r hr; rw [hcase, hf, hr]
  · intro hf hr; rw [hcase, hf, hr]
  · intro hff
    have hfe : forwardedEntry c = some "1.2.3.4" := by
      simp only [forwardedEntry, hff]
      rfl
    rw [hcase, hfe]

/-- Witness for C3 at a concrete trust-proxy connection. -/
theorem getClientIP_trustProxy_preference_witness :
    connForwarded.xForwardedFor = some "1.2.3.4, 5.6.7.8" ∧
    getClientIP true connForwarded = "1.2.3.4" :=
  ⟨rfl, (getClientIP_trustProxy_preference connForwarded).2.2.2 rfl⟩

/-- Claim C4: with `trustProxy` disabled, `getClientIP` ignores
`x-forwarded-for` and `x-real-ip`, returns the colon-stripped baseline,
is total (the embedding is a total function), and returns the empty
string when neither `cf-connecting-ip` nor a remote address is present. -/
theorem getClientIP_noTrustProxy (c : Conn) :
    getClientIP false c = stripUpToLastColon (baselineIP c) ∧
    (∀ ff xr, getClientIP false { c with xForwardedFor := ff, xRealIP := xr } =
      getClientIP false c) ∧
    (c.cfConnectingIP = none → c.remoteAddress = none → getClientIP false c = "") := by
  refine ⟨rfl, fun ff xr => rfl, ?_⟩
  intro h1 h2
  have hb : baselineIP c = "" := by simp [baselineIP, jsStringOr, h1, h2]
  have hc : getClientIP false c = stripUpToLastColon (baselineIP c) := rfl
  rw [hc, hb]
  rfl

/-- Witness for C4 at a connection with no address signal. -/
theorem getClientIP_noTrustProxy_witness :
    connEmpty.cfConnectingIP = none ∧ connEmpty.remoteAddress = none ∧
    getClientIP false connEmpty = "" :=
  ⟨rfl, rfl, (getClientIP_noTrustProxy connEmpty).2.2 rfl rfl⟩

/-- Counterexample to claim C5: with `trustProxy` enabled and
`x-forwarded-for` = "::ffff:9.9.9.9", the returned value is the trimmed
forwarded entry itself, NOT its colon-stripped form — the source applies
`replace(/^.*:/, "")` only to the baseline, never to the
`x-forwarded-for` or `x-real-ip` values. -/
theorem getClientIP_strip_counterexample :
    getClientIP true connStripCex = "::ffff:9.9.9.9" ∧
    stripUpToLastColon "::ffff:9.9.9.9" = "9.9.9.9" ∧
    getClientIP true connStripCex ≠ stripUpToLastColon (getClientIP true connStripCex) := by
  refine ⟨?_, ?_, ?_⟩ <;> decide

/-- Amended claim C5: the colon-stripping is applied to the final value
exactly when that value is the baseline (in both trust-proxy branches);
values taken from `x-forwarded-for` or `x-real-ip` are returned without
stripping. -/
theorem getClientIP_strips_baseline_only (c : Conn) :
    getClientIP false c = stripUpToLastColon (baselineIP c) ∧
    (forwardedEntry c = none → realIPEntry c = none →
      getClientIP true c = stripUpToLastColon (baselineIP c)) ∧
    (∀ e, forwardedEntry c = some e → getClientIP true c = e) ∧
    (∀ r, forwardedEntry c = none → realIPEntry c = some r → getClientIP true c = r) := by
  have hcase := getClientIP_true_eq c
  refine ⟨rfl, ?_, ?_, ?_⟩
  · intro hf hr; rw [hcase, hf, hr]
  · intro e he; rw [hcase, he]
  · intro r hf hr; rw [hcase, hf, hr]

/-- Witness for the amended C5: a trust-proxy connection with only a
baseline gets the baseline stripped. -/
theorem getClientIP_strips_baseline_only_witness :
    forwardedEntry connBaselineOnly = none ∧ realIPEntry connBaselineOnly = none ∧
    getClientIP true connBaselineOnly = "1.2.3.4" := by
  refine ⟨rfl, rfl, ?_⟩
  have h := (getClientIP_strips_baseline_only connBaselineOnly).2.1 rfl rfl
  rw [h]
  decide

/-- Claim C6: after `setTimezone(tz)` (for an actual, hence nonempty,
timezone string), the Settings store holds `tz` under `serverTimezone` in
category "general", `process.env.TZ` is `tz`, the dayjs cached default is
`tz`, and a subsequent `getTimezone()` returns `tz`. -/
theorem setTimezone_spec (st : TimeState) (hostGuess timezone : String)
    (h : timezone ≠ "") :
    settingsGet (setTimezone st timezone) "serverTimezone" = some timezone ∧
    (setTimezone st timezone).settings.find? (fun e => e.1 = "serverTimezone") =
      some ("serverTimezone", timezone, "general") ∧
    (setTimezone st timezone).envTZ = some timezone ∧
    (setTimezone st timezone).dayjsDefault = some timezone ∧
    getTimezone (setTimezone st timezone) hostGuess = timezone := by
  have hfind : (setTimezone st timezone).settings.find? (fun e => e.1 = "serverTimezone") =
      some ("serverTimezone", timezone, "general") := by
    simp [setTimezone, settingsSet]
  have hget : settingsGet (setTimezone st timezone) "serverTimezone" = some timezone := by
    simp [settingsGet, hfind]
  refine ⟨hget, hfind, rfl, rfl, ?_⟩
  simp [getTimezone, hget, h]

/-- Witness for C6: the spec's own example "Europe/London". -/
theorem setTimezone_spec_witness :
    "Europe/London" ≠ "" ∧
    getTimezone (setTimezone tzState0 "Europe/London") "Etc/UTC" = "Europe/London" :=
  ⟨by decide, (setTimezone_spec tzState0 "Etc/UTC" "Europe/London" (by decide)).2.2.2.2⟩

/-- Claim C7: `getInstance` creates the instance on the first call (from
that call's args) and every later call returns the stored instance
unchanged, ignoring its argument. -/
theorem getInstance_singleton (a b : ServerArgs) :
    (UptimeKumaServer.getInstance (UptimeKumaServer.getInstance none a).2 b).1 =
      (UptimeKumaServer.getInstance none a).1 ∧
    (UptimeKumaServer.getInstance (UptimeKumaServer.getInstance none a).2 b).2 =
      (UptimeKumaServer.getInstance none a).2 ∧
    (UptimeKumaServer.getInstance none a).1 = UptimeKumaServer.create a ∧
    (∀ (s : UptimeKumaServer) (c : ServerArgs),
      UptimeKumaServer.getInstance (some s) c = (s, some s)) :=
  ⟨rfl, rfl, rfl, fun _ _ => rfl⟩

/-- Counterexample to claim C9: a failure of step 1 (the DNS cache
refresh) prevents the scheduler pass (step 3) and the recurring interval
(step 4) from ever running in `initAfterDatabaseReady` — the `await`
chain has no catch. -/
theorem initAfterDatabaseReady_counterexample :
    (initAfterDatabaseReady { dnsUpdateOk := false, timezoneOk := true }).schedulerPassRun
      = false ∧
    (initAfterDatabaseReady { dnsUpdateOk := false, timezoneOk := true }).intervalArmed
      = false :=
  ⟨rfl, rfl⟩

/-- Amended claim C9: a failure in step (1) or (2) rejects
`initAfterDatabaseReady`: steps (3) and (4) do not run, and the error
propagates to the caller. -/
theorem initAfterDatabaseReady_failure_aborts (env : InitEnv)
    (h : env.dnsUpdateOk = false ∨ env.timezoneOk = false) :
    (initAfterDatabaseReady env).schedulerPassRun = false ∧
    (initAfterDatabaseReady env).intervalArmed = false ∧
    (initAfterDatabaseReady env).errored = true := by
  rcases h with h | h
  · simp [initAfterDatabaseReady, h]
  · cases hd : env.dnsUpdateOk <;> simp [initAfterDatabaseReady, h, hd]

/-- Witness for the amended C9. -/
theorem initAfterDatabaseReady_failure_aborts_witness :
    (({ dnsUpdateOk := false, timezoneOk := true } : InitEnv).dnsUpdateOk = false ∨
      ({ dnsUpdateOk := false, timezoneOk := true } : InitEnv).timezoneOk = false) ∧
    (initAfterDatabaseReady { dnsUpdateOk := false, timezoneOk := true }).errored = true :=
  ⟨Or.inl rfl,
    (initAfterDatabaseReady_failure_aborts { dnsUpdateOk := false, timezoneOk := true }
      (Or.inl rfl)).2.2⟩

/-- Claim C10: `sendMaintenanceList(socket)` is extensionally
`sendMaintenanceListByUserID(socket.userID)`: same returned mapping and
the same single `maintenanceList` emission to the room keyed by
`socket.userID`. -/
theorem sendMaintenanceList_eq_byUserID (db : List Maintenance) (socket : SocketRef) :
    sendMaintenanceList db socket = sendMaintenanceListByUserID db socket.userID ∧
    (sendMaintenanceList db socket).2 =
      { room := socket.userID, event := "maintenanceList",
        payload := (sendMaintenanceList db socket).1 } :=
  ⟨rfl, rfl⟩

/-- Claim C1: in a scheduler pass, whenever a matched timeslot's
`generated_next` flag has been set (false to true), the roll-forward for
its owning window and its end date was invoked and succeeded first: the
window loaded, the roll-forward call succeeded, and the successor row is
present in the resulting table. A slot whose successor creation did not
complete never gets its flag set. -/
theorem generateMaintenanceTimeslots_rollforward_before_flag
    (env : GenEnv) (now : Int) (table : List Slot)
    (Hids : (table.map (fun s => s.id)).Nodup)
    (Hfresh : ∀ m e, hasSlotId table (env.nextSlot m e).id = false)
    (x' : Slot) (hx' : x' ∈ (generateMaintenanceTimeslots env now table).1)
    (hflag : x'.generated_next = true)
    (x : Slot) (hx : x ∈ table) (hid : x.id = x'.id)
    (hold : x.generated_next = false) :
    env.loadOk x'.maintenance_id = true ∧
    env.genOk x'.maintenance_id x'.end_date = true ∧
    hasSlotId (generateMaintenanceTimeslots env now table).1
      (env.nextSlot x'.maintenance_id x'.end_date).id = true := by
  rcases processList_decompose env (dueSlots now table) table with ⟨dsp, hok, hsub, heq⟩
  rw [generateMaintenanceTimeslots] at hx' ⊢
  rw [heq] at hx' ⊢
  have hxid_mem : hasSlotId table x'.id = true := (hasSlotId_iff _ _).2 ⟨x, hx, hid⟩
  have hx'eq : x' = flagOf x := by
    rcases mem_passFold_origin env dsp table x' hx' with ⟨y, hy, hc⟩ | ⟨d, _, hc⟩
    · have hyid : y.id = x.id := by
        rcases hc with rfl | rfl
        · exact hid.symm
        · exact (hid.trans (flagOf_id y)).symm
      have hyx : y = x := slot_eq_of_nodup_ids Hids hy hx hyid
      subst hyx
      rcases hc with rfl | rfl
      · rw [hold] at hflag; cases hflag
      · rfl
    · exfalso
      have hxid : x'.id = (env.nextSlot d.maintenance_id d.end_date).id := by
        rcases hc with rfl | rfl
        · rfl
        · rfl
      rw [hxid, Hfresh d.maintenance_id d.end_date] at hxid_mem
      cases hxid_mem
  rcases flagged_origin_passFold env dsp table x' hx' hflag with
    ⟨y, hy, hyid, hyfl⟩ | ⟨d, hd, hdid⟩ | ⟨d, _, hnid⟩
  · exfalso
    have hyx : y = x := slot_eq_of_nodup_ids Hids hy hx (hyid.trans hid.symm)
    rw [hyx, hold] at hyfl
    cases hyfl
  · have hdt : d ∈ table := dueSlots_subset d (hsub d hd)
    have hdx : d = x := slot_eq_of_nodup_ids Hids hdt hx (hdid.trans hid.symm)
    have hsucc := hok d hd
    have hpresent := succ_present_passFold env dsp table d hd
    rw [hdx] at hsucc hpresent
    rw [hx'eq]
    exact ⟨hsucc.1, hsucc.2, hpresent⟩
  · exfalso
    rw [hnid, Hfresh d.maintenance_id d.end_date] at hxid_mem
    cases hxid_mem

/-- Witness for C1: one due slot, successful environment; the flagged row
satisfies the conclusion. -/
theorem generateMaintenanceTimeslots_rollforward_before_flag_witness :
    flagOf slotOne ∈ (generateMaintenanceTimeslots envOk 0 tableOne).1 ∧
    envOk.loadOk 5 = true ∧ envOk.genOk 5 10 = true ∧
    hasSlotId (generateMaintenanceTimeslots envOk 0 tableOne).1
      (envOk.nextSlot 5 10).id = true := by
  have hfresh : ∀ m e, hasSlotId tableOne (envOk.nextSlot m e).id = false := by
    intro m e
    simp only [envOk, tableOne, slotOne, hasSlotId, List.any_cons, List.any_nil,
      Bool.or_false, decide_eq_false_iff_not]
    omega
  have h := generateMaintenanceTimeslots_rollforward_before_flag envOk 0 tableOne
    (by decide) hfresh (flagOf slotOne) (by decide) rfl slotOne (by decide) rfl rfl
  exact ⟨by decide, h⟩

/-- Claim C2: with a loading/roll-forward environment that always succeeds
(the roll-forward being idempotent, as its contract requires) and fresh
successor row ids, one pass flags every due slot, leaves exactly one
successor row for it, and a second pass run on the resulting durable state
neither selects the flagged slot again nor produces an additional
successor row for it. -/
theorem generateMaintenanceTimeslots_once_and_idempotent
    (env : GenEnv) (now now2 : Int) (table : List Slot) (s : Slot)
    (Hl : ∀ m, env.loadOk m = true)
    (Hg : ∀ m e, env.genOk m e = true)
    (Hfresh : ∀ m e, hasSlotId table (env.nextSlot m e).id = false)
    (hs : s ∈ table) (h0 : s.generated_next = false) (hdue : s.start_date ≤ now) :
    (∀ x ∈ (generateMaintenanceTimeslots env now table).1, x.id = s.id →
      x.generated_next = true) ∧
    hasSlotId (generateMaintenanceTimeslots env now table).1 s.id = true ∧
    countId (generateMaintenanceTimeslots env now table).1
      (env.nextSlot s.maintenance_id s.end_date).id = 1 ∧
    (∀ x ∈ dueSlots now2 (generateMaintenanceTimeslots env now table).1, x.id ≠ s.id) ∧
    countId (generateMaintenanceTimeslots env now2
        (generateMaintenanceTimeslots env now table).1).1
      (env.nextSlot s.maintenance_id s.end_date).id = 1 := by
  have hpass : ∀ (n : Int) (t : List Slot),
      generateMaintenanceTimeslots env n t = (passFold env (dueSlots n t) t, false) :=
    fun n t => processList_eq_passFold env Hl Hg _ _
  have hsdue : s ∈ dueSlots now table := mem_dueSlots.2 ⟨hs, h0, hdue⟩
  have hne : ∀ m e, (env.nextSlot m e).id ≠ s.id := by
    intro m e heq
    have hmem : hasSlotId table s.id = true := (hasSlotId_iff _ _).2 ⟨s, hs, rfl⟩
    rw [← heq, Hfresh m e] at hmem
    cases hmem
  have hflags : ∀ x ∈ (generateMaintenanceTimeslots env now table).1, x.id = s.id →
      x.generated_next = true := by
    rw [hpass now table]
    exact passFold_flags_mem env (dueSlots now table) s.id hne table s hsdue rfl
  have hcount1 : countId (generateMaintenanceTimeslots env now table).1
      (env.nextSlot s.maintenance_id s.end_date).id = 1 := by
    rw [hpass now table]
    have hzero : countId table (env.nextSlot s.maintenance_id s.end_date).id = 0 :=
      countId_eq_zero_of_not_has _ _ (Hfresh s.maintenance_id s.end_date)
    rw [countId_passFold_of_zero env _ table _ hzero]
    have hany : (dueSlots now table).any
        (fun d => decide ((env.nextSlot d.maintenance_id d.end_date).id =
          (env.nextSlot s.maintenance_id s.end_date).id)) = true :=
      List.any_eq_true.2 ⟨s, hsdue, by simp⟩
    simp [hany]
  refine ⟨hflags, ?_, hcount1, ?_, ?_⟩
  · rw [hpass now table]
    exact hasSlotId_passFold_of_pos env _ table s.id ((hasSlotId_iff _ _).2 ⟨s, hs, rfl⟩)
  · intro x hx heq
    have hxin : x ∈ (generateMaintenanceTimeslots env now table).1 := dueSlots_subset x hx
    have hfl := hflags x hxin heq
    have hnot := (mem_dueSlots.1 hx).2.1
    rw [hfl] at hnot
    cases hnot
  · rw [hpass now2 (generateMaintenanceTimeslots env now table).1]
    exact countId_passFold_of_pos env _ _ _ (by rw [hcount1]; omega) |>.trans hcount1

/-- Witness for C2 at a concrete table and always-successful environment. -/
theorem generateMaintenanceTimeslots_once_and_idempotent_witness :
    slotOne ∈ tableOne ∧ slotOne.generated_next = false ∧
    slotOne.start_date ≤ (0 : Int) ∧
    countId (generateMaintenanceTimeslots envOk 0 tableOne).1
      (envOk.nextSlot 5 10).id = 1 ∧
    countId (generateMaintenanceTimeslots envOk 60
        (generateMaintenanceTimeslots envOk 0 tableOne).1).1
      (envOk.nextSlot 5 10).id = 1 := by
  have hfresh : ∀ m e, hasSlotId tableOne (envOk.nextSlot m e).id = false := by
    intro m e
    simp only [envOk, tableOne, slotOne, hasSlotId, List.any_cons, List.any_nil,
      Bool.or_false, decide_eq_false_iff_not]
    omega
  have h := generateMaintenanceTimeslots_once_and_idempotent envOk 0 60 tableOne slotOne
    (fun _ => rfl) (fun _ _ => rfl) hfresh (by decide) rfl (by decide)
  exact ⟨by decide, rfl, by decide, h.2.2.1, h.2.2.2.2⟩

/-- Counterexample to claim C8: with two matched timeslots where the first
record's owning window fails to load, the pass aborts and the sibling
record (row 2) is neither rolled forward nor flagged — the loop body has
no per-record error isolation. -/
theorem generateMaintenanceTimeslots_sibling_abort_counterexample :
    slotTwo ∈ dueSlots 0 tableTwo ∧
    envLoadFail.loadOk slotOne.maintenance_id = false ∧
    (generateMaintenanceTimeslots envLoadFail 0 tableTwo).1 = tableTwo ∧
    (generateMaintenanceTimeslots envLoadFail 0 tableTwo).2 = true ∧
    (∀ x ∈ (generateMaintenanceTimeslots envLoadFail 0 tableTwo).1, x.id = 2 →
      x.generated_next = false) ∧
    hasSlotId (generateMaintenanceTimeslots envLoadFail 0 tableTwo).1
      (envLoadFail.nextSlot 6 20).id = false := by
  refine ⟨?_, ?_, ?_, ?_, ?_, ?_⟩ <;> decide

/-- Amended claim C8: an error raised while processing one matched record
aborts the remainder of the pass: records before it in the query order
are fully processed, the failing record and all records after it are left
unmodified, and the pass surfaces the error. -/
theorem generateMaintenanceTimeslots_error_aborts_rest
    (env : GenEnv) (now : Int) (table : List Slot) (ds1 : List Slot) (d : Slot)
    (ds2 : List Slot)
    (hsplit : dueSlots now table = ds1 ++ d :: ds2)
    (h1 : ∀ x ∈ ds1, env.loadOk x.maintenance_id = true ∧
      env.genOk x.maintenance_id x.end_date = true)
    (hd : env.loadOk d.maintenance_id = false ∨
      env.genOk d.maintenance_id d.end_date = false) :
    generateMaintenanceTimeslots env now table = (passFold env ds1 table, true) := by
  rw [generateMaintenanceTimeslots, hsplit]
  exact processList_append_fail env ds1 table d ds2 h1 hd

/-- Witness for the amended C8 at the concrete failing environment. -/
theorem generateMaintenanceTimeslots_error_aborts_rest_witness :
    dueSlots 0 tableTwo = [] ++ slotOne :: [slotTwo] ∧
    envLoadFail.loadOk slotOne.maintenance_id = false ∧
    generateMaintenanceTimeslots envLoadFail 0 tableTwo =
      (passFold envLoadFail [] tableTwo, true) := by
  refine ⟨by decide, by decide, ?_⟩
  exact generateMaintenanceTimeslots_error_aborts_rest envLoadFail 0 tableTwo [] slotOne
    [slotTwo] (by decide) (by intro x hx; exact absurd hx (List.not_mem_nil x))
    (Or.inl (by decide))
